import Mathlib

/-!
Verification of the parallel flashcard-generation core of the lia-ai-service
repository, as a shallow embedding in Lean 4.

The embedding follows the Python source:
* `src/src/agents/multi_agent_flashcards.py` — `MultiAgentFlashcardGenerator`
  (`_generate_subtopics`, `_create_batches`, `estimate_batches`,
  `generate_flashcards_parallel`) and `FlashcardAgent.generate_flashcards_batch`.
* `src/src/services/ai_service.py` — `ProgressTracker`
  (`__init__`, `_ensure_agent_slots`, `set_total_agents`, `update_agent_status`),
  `start_flashcard_generation` and `stream_progress`.

External effects are made explicit parameters:
* the OpenAI subtopic-decomposition call becomes a `DecompositionOutcome`;
* each worker's provider call becomes a `ProviderOutcome`; JSON parsing of the
  provider text is an abstract `parse` function (`none` models a
  `json.JSONDecodeError`);
* `uuid.uuid4()` batch ids become a `freshId : Nat → String` parameter;
* `asyncio.gather` is modelled by an explicit completion order: the scheduler
  finishes tasks in some permutation of the task indices, and `gatherByIndex`
  re-orders the completion log back into task-submission order, which is what
  `asyncio.gather` guarantees;
* `datetime` timestamps are dropped (no claim depends on wall-clock values);
  the `completed_at` field of a progress record is kept as the Boolean
  "a timestamp was stored".

All Python integers handled here are counts that the code keeps non-negative
(`generate_flashcards_parallel` rejects `count <= 0` before any arithmetic),
so they are modelled as `Nat`; the single signed entry point keeps `Int`.
-/

/-- One generated flashcard after the worker has tagged it.  The dict payload
(front/back/tags …) is abstracted into one `payload` field; the fields the
worker writes (`id`, `batch_id`, `agent_id`) are explicit. -/
structure TaggedItem where
  payload : String
  id : String
  batchId : String
  agentId : Nat
  deriving DecidableEq, Repr

/-- One raw item as parsed out of the provider's JSON, before tagging. -/
structure RawItem where
  payload : String
  deriving DecidableEq, Repr

/-- Status of a `FlashcardBatch` (the Python code uses the string constants
"pending", "processing", "completed", "error"). -/
inductive BatchStatus where
  | pending
  | processing
  | completed
  | error
  deriving DecidableEq, Repr

/-- Embedding of the `FlashcardBatch` pydantic model. -/
structure FlashcardBatch where
  batchId : String
  topic : String
  subtopic : String
  count : Nat
  difficulty : String
  agentId : Nat
  flashcards : List TaggedItem := []
  status : BatchStatus := .pending
  errorMessage : Option String := none
  deriving DecidableEq, Repr

def defaultBatch : FlashcardBatch :=
  { batchId := "", topic := "", subtopic := "", count := 0, difficulty := "",
    agentId := 0 }

/-- Outcome of the external subtopic-decomposition call made by
`_generate_subtopics`: the provider is unconfigured (`is_openai_configured()`
is false), the call or the JSON parse of its reply raised (the `except` arm
that sets `subtopics = []`), or it produced a list of labels. -/
inductive DecompositionOutcome where
  | unconfigured
  | failure
  | ok (labels : List String)
  deriving DecidableEq, Repr

/-- Label synthesized by the source as `f"{main_topic} - Parte {i}"`. -/
def syntheticSubtopic (mainTopic : String) (i : Nat) : String :=
  mainTopic ++ " - Parte " ++ toString i

/-- Embedding of the `while len(subtopics) < count:` fill loop of
`_generate_subtopics`. -/
def fillSubtopics (mainTopic : String) (count : Nat) (acc : List String) :
    List String :=
  if acc.length < count then
    fillSubtopics mainTopic count (acc ++ [syntheticSubtopic mainTopic (acc.length + 1)])
  else acc
  termination_by count - acc.length
  decreasing_by simp; omega

/-- Embedding of `MultiAgentFlashcardGenerator._generate_subtopics`. -/
def generate_subtopics (mainTopic : String) (count : Nat)
    (outcome : DecompositionOutcome) : List String :=
  match outcome with
  | .unconfigured => (List.range count).map fun i => syntheticSubtopic mainTopic (i + 1)
  | .failure => (fillSubtopics mainTopic count []).take count
  | .ok labels => (fillSubtopics mainTopic count labels).take count

/-- Embedding of `MultiAgentFlashcardGenerator._create_batches`.  `freshId`
stands for the `uuid.uuid4()` default of `batch_id`. -/
def create_batches (maxAgents : Nat) (topic difficulty : String)
    (totalCount : Nat) (decomp : DecompositionOutcome)
    (freshId : Nat → String) : List FlashcardBatch :=
  let agentsToUse := max 1 (min maxAgents totalCount)
  let subtopics := generate_subtopics topic agentsToUse decomp
  let flashcardsPerAgent := max 1 (totalCount / agentsToUse)
  let remaining := totalCount % agentsToUse
  (List.range agentsToUse).filterMap fun index =>
    let countForAgent := flashcardsPerAgent + (if index < remaining then 1 else 0)
    if countForAgent ≤ 0 then none
    else some
      { batchId := freshId index
        topic := topic
        subtopic := subtopics.getD index ""
        count := countForAgent
        difficulty := difficulty
        agentId := index + 1 }

/-- Embedding of `MultiAgentFlashcardGenerator.estimate_batches`. -/
def estimate_batches (maxAgents : Nat) (requestedCount : Int) : Nat :=
  if requestedCount ≤ 0 then 1
  else min maxAgents requestedCount.toNat

/-- Outcome of one worker's call to the generation provider
(`create_chat_completion`): the client is unavailable (the `RuntimeError`
arm), the call raised (the generic `Exception` arm), or it returned text. -/
inductive ProviderOutcome where
  | unavailable (msg : String)
  | failure (msg : String)
  | ok (content : String)
  deriving DecidableEq, Repr

/-- One call to the progress callback, as emitted by
`FlashcardAgent.generate_flashcards_batch.emit` and by the orchestrator:
`(agent_id, status, subtopic, progress, total_batches)`. -/
structure WorkerEvent where
  agentId : Nat
  status : String
  subtopic : String
  progress : Nat
  totalBatches : Nat
  deriving DecidableEq, Repr

/-- Embedding of the code-fence stripping the worker applies to the provider
text before `json.loads` (the `content.startswith("```json")` cascade,
applied to the already-stripped message content). -/
def prepareContent (raw : String) : String :=
  let content := raw.trim
  if content.startsWith "```json" then
    ((content.replace "```json" "").replace "```" "").trim
  else if content.startsWith "```" then
    (content.replace "```" "").trim
  else content

/-- Embedding of the tagging loop `for index, flashcard in enumerate(...)`:
every parsed item receives `id = f"{batch.batch_id}_{index+1}"`, the batch id
and the agent id (the `created_at` timestamp is dropped). -/
def tagFlashcards (batch : FlashcardBatch) (agentId : Nat)
    (raws : List RawItem) : List TaggedItem :=
  raws.enum.map fun p =>
    { payload := p.2.payload
      id := batch.batchId ++ "_" ++ toString (p.1 + 1)
      batchId := batch.batchId
      agentId := agentId }

/-- Embedding of `FlashcardAgent.generate_flashcards_batch`.  `parse` models
`json.loads` followed by `.get("flashcards", [])`: `none` is a
`json.JSONDecodeError`, `some raws` a successful parse.  Returns the mutated
batch together with the list of progress-callback invocations, in order. -/
def generate_flashcards_batch (agentId : Nat) (batch : FlashcardBatch)
    (totalBatches : Nat) (parse : String → Option (List RawItem))
    (outcome : ProviderOutcome) : FlashcardBatch × List WorkerEvent :=
  let emit := fun (status : String) (progress : Nat) =>
    WorkerEvent.mk agentId status batch.subtopic progress totalBatches
  let e0 := emit "processing" 5
  match outcome with
  | .unavailable msg =>
      ({ batch with status := .error, errorMessage := some msg },
       [e0, emit "error" 100])
  | .failure msg =>
      ({ batch with status := .error, errorMessage := some msg },
       [e0, emit "error" 100])
  | .ok content =>
      match parse (prepareContent content) with
      | none =>
          ({ batch with
              status := .error,
              errorMessage := some "Erro ao parsear resposta JSON" },
           [e0, emit "error" 100])
      | some raws =>
          ({ batch with
              flashcards := tagFlashcards batch agentId raws,
              status := .completed },
           [e0, emit "completed" 100])

/-- Fate of one `asyncio.create_task` as observed by
`asyncio.gather(..., return_exceptions=True)`: either the task itself raised
(captured as an `Exception` result) or the worker ran on a provider outcome. -/
inductive TaskOutcome where
  | fault (msg : String)
  | provider (outcome : ProviderOutcome)
  deriving DecidableEq, Repr

/-- The batch produced for one task, as the aggregation loop of
`generate_flashcards_parallel` sees it: a raised task is converted into an
`error` batch, otherwise the worker's returned batch is taken as-is.  The
worker slot is `self.agents[batch.agent_id - 1]`, whose `agent_id` equals
`batch.agent_id` by construction of the `agents` list. -/
def runTask (parse : String → Option (List RawItem)) (totalBatches : Nat)
    (taskOutcome : FlashcardBatch → TaskOutcome)
    (batch : FlashcardBatch) : FlashcardBatch :=
  match taskOutcome batch with
  | .fault msg => { batch with status := .error, errorMessage := some msg }
  | .provider po =>
      (generate_flashcards_batch batch.agentId batch totalBatches parse po).1

/-- Completion log of the concurrent run: tasks finish in the order given by
`order` (a permutation of the task indices), and each finished task `i`
contributes the batch computed from `batches[i]`. -/
def completionLog (run : FlashcardBatch → FlashcardBatch)
    (batches : List FlashcardBatch) (order : List Nat) :
    List (Nat × FlashcardBatch) :=
  order.map fun i => (i, run (batches.getD i defaultBatch))

/-- Semantics of `asyncio.gather`: results are returned in task-submission
order, by looking each task index up in the completion log. -/
def gatherByIndex (log : List (Nat × FlashcardBatch)) (n : Nat) :
    List FlashcardBatch :=
  (List.range n).map fun i =>
    (((log.find? fun p => p.1 == i).map Prod.snd).getD defaultBatch)

/-- Embedding of the aggregation loop: `completed_flashcards` is extended with
the flashcards of every result whose status is `completed`, in result order. -/
def aggregateItems (results : List FlashcardBatch) : List TaggedItem :=
  results.foldl
    (fun acc b => if b.status == .completed then acc ++ b.flashcards else acc) []

/-- Composite result of `generate_flashcards_parallel` (the fields of the
returned dict that the claims are about; `flashcards` is absent from the
failure dicts, modelled as the empty list). -/
structure CompositeResult where
  success : Bool
  flashcards : List TaggedItem := []
  error : Option String := none
  batchesCompleted : Nat := 0
  batchesFailed : Nat := 0
  deriving DecidableEq, Repr

/-- Embedding of `MultiAgentFlashcardGenerator.generate_flashcards_parallel`.
`openaiConfigured` models `is_openai_configured()`, `completionOrder` the
order in which the scheduler finishes the worker tasks. -/
def generate_flashcards_parallel (openaiConfigured : Bool) (maxAgents : Nat)
    (topic : String) (count : Int) (difficulty : String)
    (decomp : DecompositionOutcome) (freshId : Nat → String)
    (taskOutcome : FlashcardBatch → TaskOutcome)
    (parse : String → Option (List RawItem))
    (completionOrder : List Nat) : CompositeResult :=
  if !openaiConfigured then
    { success := false, error := some "Serviço de IA indisponível no momento" }
  else if count ≤ 0 then
    { success := false, error := some "Quantidade de flashcards deve ser positiva" }
  else
    let batches := create_batches maxAgents topic difficulty count.toNat decomp freshId
    if batches.isEmpty then
      { success := false, error := some "Não foi possível criar lotes de flashcards" }
    else
      let totalBatches := batches.length
      let results := gatherByIndex
        (completionLog (runTask parse totalBatches taskOutcome) batches completionOrder)
        totalBatches
      let aggregated := aggregateItems results
      let successfulCount := (results.filter fun b => b.status == .completed).length
      let failedCount := (results.filter fun b => b.status == .error).length
      if !aggregated.isEmpty then
        { success := true, flashcards := aggregated,
          batchesCompleted := successfulCount, batchesFailed := failedCount }
      else
        { success := false, error := some "Falha na geração de flashcards",
          batchesFailed := failedCount }

/-- One per-worker record of `ProgressTracker.agents_status`; `completedAt`
keeps only whether a `completed_at` timestamp was stored. -/
structure AgentRecord where
  status : String
  subtopic : String
  progress : Nat
  completedAt : Bool
  deriving DecidableEq, Repr

def waitingRecord : AgentRecord :=
  { status := "waiting", subtopic := "", progress := 0, completedAt := false }

/-- The terminal-status test `status in {"completed", "error"}`. -/
def isTerminalStatus (s : String) : Bool :=
  s == "completed" || s == "error"

/-- Embedding of `ProgressTracker` (dict `agents_status` as an association
list keyed by 1-based agent id). -/
structure ProgressTracker where
  operationId : String
  totalAgents : Nat
  completedAgents : Nat
  agentsStatus : List (Nat × AgentRecord)
  deriving DecidableEq, Repr

/-- Embedding of `ProgressTracker._ensure_agent_slots`. -/
def ensureAgentSlots (m : List (Nat × AgentRecord)) (totalAgents : Nat) :
    List (Nat × AgentRecord) :=
  (List.range totalAgents).foldl
    (fun acc i =>
      if (acc.lookup (i + 1)).isSome then acc else acc ++ [(i + 1, waitingRecord)])
    m

/-- Embedding of `ProgressTracker.__init__` (the registration of the tracker
in the process-wide `progress_store` is modelled separately, at the call
sites that thread the store). -/
def ProgressTracker.init (operationId : String) (totalAgents : Nat) :
    ProgressTracker :=
  let total := max 1 totalAgents
  { operationId := operationId
    totalAgents := total
    completedAgents := 0
    agentsStatus := ensureAgentSlots [] total }

/-- Embedding of `ProgressTracker.set_total_agents`. -/
def ProgressTracker.set_total_agents (t : ProgressTracker)
    (totalAgents : Nat) : ProgressTracker :=
  if totalAgents ≤ 0 then t
  else if totalAgents ≠ t.totalAgents then
    { t with
        totalAgents := totalAgents
        agentsStatus := ensureAgentSlots t.agentsStatus totalAgents }
  else t

/-- Replacement of the record stored under key `k` (the in-place
`self.agents_status[agent_id].update({...})`). -/
def updateAssoc (m : List (Nat × AgentRecord)) (k : Nat) (v : AgentRecord) :
    List (Nat × AgentRecord) :=
  m.map fun p => if p.1 == k then (k, v) else p

/-- Current status string recorded for a worker (`"waiting"` slots are what
`_ensure_agent_slots` creates for unseen workers). -/
def ProgressTracker.statusOf (t : ProgressTracker) (agentId : Nat) : String :=
  ((t.agentsStatus.lookup agentId).getD waitingRecord).status

/-- Embedding of `ProgressTracker.update_agent_status`. -/
def ProgressTracker.update_agent_status (t : ProgressTracker) (agentId : Nat)
    (status subtopic : String) (progress : Nat) : ProgressTracker :=
  let m0 := if (t.agentsStatus.lookup agentId).isSome then t.agentsStatus
            else ensureAgentSlots t.agentsStatus agentId
  let previousStatus := ((m0.lookup agentId).getD waitingRecord).status
  let record : AgentRecord :=
    { status := status, subtopic := subtopic, progress := progress,
      completedAt := isTerminalStatus status }
  let completed :=
    if isTerminalStatus status && !isTerminalStatus previousStatus then
      min t.totalAgents (t.completedAgents + 1)
    else t.completedAgents
  { t with agentsStatus := updateAssoc m0 agentId record,
           completedAgents := completed }

/-- One `UpdateWorker` call: `(agent_id, status, subtopic, progress)`. -/
structure UpdateCall where
  agentId : Nat
  status : String
  subtopic : String
  progress : Nat
  deriving DecidableEq, Repr

/-- A sequence of `update_agent_status` calls applied in order. -/
def applyUpdates (t : ProgressTracker) (calls : List UpdateCall) :
    ProgressTracker :=
  calls.foldl
    (fun acc c => acc.update_agent_status c.agentId c.status c.subtopic c.progress) t

/-- Embedding of the nested `handle_progress` closure of
`start_flashcard_generation`: an optional `total_agents` first revises the
tracker's worker count, then the worker record is upserted. -/
def handleProgress (t : ProgressTracker) (agentId : Nat)
    (status subtopic : String) (progress : Nat) (totalAgents : Option Nat) :
    ProgressTracker :=
  let t1 := match totalAgents with
    | some n => t.set_total_agents n
    | none => t
  t1.update_agent_status agentId status subtopic progress

/-- Embedding of the nested `finalize_agents` closure: every slot from 1 to
`total_agents` is reported with the given status. -/
def finalizeAgents (t : ProgressTracker) (status topic : String)
    (progress : Nat) : ProgressTracker :=
  (List.range t.totalAgents).foldl
    (fun acc i => acc.update_agent_status (i + 1) status topic progress) t

/-- The process-wide `progress_store` dict. -/
abbrev ProgressStore := List (String × ProgressTracker)

/-- `progress_store[operation_id] = tracker` (replace-or-append). -/
def storeSet (store : ProgressStore) (operationId : String)
    (t : ProgressTracker) : ProgressStore :=
  if (store.lookup operationId).isSome then
    store.map fun p => if p.1 == operationId then (operationId, t) else p
  else store ++ [(operationId, t)]

/-- Result dict of `start_flashcard_generation` (the fields the claims are
about). -/
structure ServiceResult where
  success : Bool
  flashcards : List TaggedItem := []
  error : Option String := none
  operationId : String
  deriving DecidableEq, Repr

/-- Embedding of `start_flashcard_generation` as a transformer of the
process-wide `progress_store`.  `generatorConfigured` models
`get_multi_agent_generator()` returning an instance, `operationId` the fresh
`f"flashcards_{uuid4}"` id, `workerCalls` the scheduler-dependent sequence of
progress-callback invocations issued while the parallel run is in flight
(queued notifications and worker emissions), and `fallback` the outcome of
`generate_flashcards_single_agent` (success flag and items).  In the source
the tracker object is mutated in place and the store keeps a reference to it;
here every mutation is written back to the store explicitly. -/
def start_flashcard_generation (store : ProgressStore) (operationId : String)
    (generatorConfigured : Bool) (maxAgents : Nat)
    (topic : String) (count : Int) (difficulty : String)
    (openaiConfigured : Bool) (decomp : DecompositionOutcome)
    (freshId : Nat → String) (taskOutcome : FlashcardBatch → TaskOutcome)
    (parse : String → Option (List RawItem)) (completionOrder : List Nat)
    (workerCalls : List UpdateCall)
    (fallback : Bool × List TaggedItem) : ProgressStore × ServiceResult :=
  let estimatedAgents : Nat :=
    if generatorConfigured then estimate_batches maxAgents count else 1
  let tracker := ProgressTracker.init operationId estimatedAgents
  let store := storeSet store operationId tracker
  if !generatorConfigured then
    let tracker := handleProgress tracker 1 "processing" topic 10 (some 1)
    let finalStatus := if fallback.1 then "completed" else "error"
    let tracker := finalizeAgents tracker finalStatus topic 100
    (storeSet store operationId tracker,
     { success := fallback.1, flashcards := fallback.2,
       operationId := operationId })
  else
    let result := generate_flashcards_parallel openaiConfigured maxAgents
      topic count difficulty decomp freshId taskOutcome parse completionOrder
    let tracker := applyUpdates tracker workerCalls
    let store := storeSet store operationId tracker
    if result.success then
      (store,
       { success := true, flashcards := result.flashcards,
         operationId := operationId })
    else
      let tracker := finalizeAgents tracker "processing" topic 10
      let finalStatus := if fallback.1 then "completed" else "error"
      let tracker := finalizeAgents tracker finalStatus topic 100
      (storeSet store operationId tracker,
       { success := fallback.1, flashcards := fallback.2,
         operationId := operationId })

/-- One server-sent event of `stream_progress` (the JSON payloads of the
snapshot events are reduced to the tracker fields they serialize; the
time-derived entries of `get_progress_data` are dropped). -/
inductive StreamEvent where
  | connected (operationId : String)
  | timeout
  | snapshot (totalAgents completedAgents : Nat)
  | completedFinal (totalAgents completedAgents : Nat)
  deriving DecidableEq, Repr

/-- Embedding of the bounded wait
`while operation_id not in progress_store and wait_count < max_wait`.
`present u` tells whether the operation id is in the store after `u` sleeps;
the function returns the final value of `wait_count`. -/
def waitLoop (present : Nat → Bool) (waitCount : Nat) : Nat :=
  if present waitCount then waitCount
  else if waitCount < 30 then waitLoop present (waitCount + 1)
  else waitCount
  termination_by 30 - waitCount
  decreasing_by omega

/-- Embedding of the polling loop
`while tracker and tracker.completed_agents < tracker.total_agents`:
the condition is read at the current instant, one sleep passes, and the
snapshot of the then-current tracker state is yielded.  `trackerAt u` is the
tracker's state after `u` sleeps; `fuel` truncates the potentially unbounded
stream. -/
def pollLoop (trackerAt : Nat → ProgressTracker) (u : Nat) (fuel : Nat) :
    List StreamEvent :=
  match fuel with
  | 0 => []
  | fuel + 1 =>
    let tr := trackerAt u
    if tr.completedAgents < tr.totalAgents then
      StreamEvent.snapshot (trackerAt (u + 1)).totalAgents
          (trackerAt (u + 1)).completedAgents
        :: pollLoop trackerAt (u + 1) fuel
    else
      [StreamEvent.completedFinal tr.totalAgents tr.completedAgents]

/-- Embedding of the generator body of `stream_progress`
(`generate_progress_events`): the `connected` event is yielded first, then
the bounded wait runs, and either the single `timeout` event ends the stream
or the polling loop takes over. -/
def stream_progress_events (present : Nat → Bool)
    (trackerAt : Nat → ProgressTracker) (operationId : String)
    (fuel : Nat) : List StreamEvent :=
  StreamEvent.connected operationId ::
    (let w := waitLoop present 0
     if present w then pollLoop trackerAt w fuel
     else [StreamEvent.timeout])

/-- Worker-pool size chosen by the planner:
`agents_to_use = max(1, min(self.max_agents, state.total_count))`. -/
def agentsToUse (maxAgents totalCount : Nat) : Nat :=
  max 1 (min maxAgents totalCount)

/-- Item count the planner assigns to the batch at `index`. -/
def plannedCount (maxAgents totalCount index : Nat) : Nat :=
  max 1 (totalCount / agentsToUse maxAgents totalCount)
    + (if index < totalCount % agentsToUse maxAgents totalCount then 1 else 0)

/-- The batch the planner creates at `index`. -/
def plannedBatch (maxAgents : Nat) (topic difficulty : String)
    (totalCount : Nat) (decomp : DecompositionOutcome)
    (freshId : Nat → String) (index : Nat) : FlashcardBatch :=
  { batchId := freshId index
    topic := topic
    subtopic := (generate_subtopics topic (agentsToUse maxAgents totalCount) decomp).getD index ""
    count := plannedCount maxAgents totalCount index
    difficulty := difficulty
    agentId := index + 1 }

/-- The per-run result list: each planned batch, transformed by its own
worker task. -/
def parallelResults (maxAgents : Nat) (topic difficulty : String)
    (totalCount : Nat) (decomp : DecompositionOutcome)
    (freshId : Nat → String) (taskOutcome : FlashcardBatch → TaskOutcome)
    (parse : String → Option (List RawItem)) : List FlashcardBatch :=
  let batches := create_batches maxAgents topic difficulty totalCount decomp freshId
  batches.map (runTask parse batches.length taskOutcome)

/-- Provider outcomes on which the worker's `try` block fails: the client is
unavailable, the call raised, or the returned text does not parse as JSON. -/
def providerFails (parse : String → Option (List RawItem)) :
    ProviderOutcome → Prop
  | .unavailable _ => True
  | .failure _ => True
  | .ok content => parse (prepareContent content) = none

theorem filterMap_congr_map {α β : Type} (l : List α) (f : α → Option β)
    (g : α → β) (h : ∀ a ∈ l, f a = some (g a)) :
    l.filterMap f = l.map g := by
  induction l with
  | nil => rfl
  | cons a l ih =>
      rw [List.filterMap_cons, h a (List.mem_cons_self a l), List.map_cons,
        ih fun a ha => h a (List.mem_cons_of_mem _ ha)]

theorem create_batches_eq_map (maxAgents : Nat) (topic difficulty : String)
    (totalCount : Nat) (decomp : DecompositionOutcome)
    (freshId : Nat → String) :
    create_batches maxAgents topic difficulty totalCount decomp freshId
      = (List.range (agentsToUse maxAgents totalCount)).map
          (plannedBatch maxAgents topic difficulty totalCount decomp freshId) := by
  rw [create_batches]
  refine filterMap_congr_map _ _ _ fun index _ => ?_
  have h1 : ¬ (max 1 (totalCount / max 1 (min maxAgents totalCount))
      + (if index < totalCount % max 1 (min maxAgents totalCount) then 1 else 0) ≤ 0) := by
    have := Nat.le_max_left 1 (totalCount / max 1 (min maxAgents totalCount))
    omega
  simp only [h1, if_false, if_neg]
  rfl

theorem getD_map_range {β : Type} (n i : Nat) (f : Nat → β) (d : β)
    (h : i < n) : ((List.range n).map f).getD i d = f i := by
  rw [List.getD_eq_getElem?_getD, List.getElem?_map, List.getElem?_range h]
  rfl

theorem sum_range_base_ite (n b r : Nat) :
    ((List.range n).map fun i => b + if i < r then 1 else 0).sum
      = n * b + min r n := by
  induction n with
  | zero => simp
  | succ n ih =>
      rw [List.range_succ, List.map_append, List.sum_append, ih, Nat.succ_mul]
      by_cases h : n < r <;> simp [h] <;> omega

theorem plannedCount_eq (maxAgents totalCount index : Nat)
    (h1 : 0 < totalCount) (h2 : 1 ≤ maxAgents) :
    plannedCount maxAgents totalCount index
      = totalCount / min maxAgents totalCount
        + (if index < totalCount % min maxAgents totalCount then 1 else 0) := by
  have hw : agentsToUse maxAgents totalCount = min maxAgents totalCount := by
    unfold agentsToUse; omega
  have hle : min maxAgents totalCount ≤ totalCount := Nat.min_le_right _ _
  have hpos : 0 < min maxAgents totalCount := by omega
  have hdiv : 1 ≤ totalCount / min maxAgents totalCount :=
    (Nat.one_le_div_iff hpos).mpr hle
  unfold plannedCount
  rw [hw]
  omega

/-- C1: for every topic, every `totalCount > 0` and every `maxWorkers ≥ 1`,
the planner's batch item counts sum exactly to `totalCount`, the number of
batches is at most `min(maxWorkers, totalCount)`, the first
`totalCount mod workersUsed` batches receive one item more than the
integer-division base `totalCount / workersUsed`, and every produced batch
has a positive item count (a batch whose count came out 0 would have been
dropped). -/
theorem spec_c1_batch_plan (maxWorkers totalCount : Nat)
    (topic difficulty : String) (decomp : DecompositionOutcome)
    (freshId : Nat → String) (h1 : 0 < totalCount) (h2 : 1 ≤ maxWorkers) :
    ((create_batches maxWorkers topic difficulty totalCount decomp freshId).map
        fun b => b.count).sum = totalCount
    ∧ (create_batches maxWorkers topic difficulty totalCount decomp freshId).length
        ≤ min maxWorkers totalCount
    ∧ (∀ i, i < (create_batches maxWorkers topic difficulty totalCount decomp freshId).length →
        ((create_batches maxWorkers topic difficulty totalCount decomp freshId).getD i defaultBatch).count
          = totalCount / min maxWorkers totalCount
            + (if i < totalCount % min maxWorkers totalCount then 1 else 0))
    ∧ ∀ b ∈ create_batches maxWorkers topic difficulty totalCount decomp freshId,
        0 < b.count := by
  have hw : agentsToUse maxWorkers totalCount = min maxWorkers totalCount := by
    unfold agentsToUse; omega
  have hle : min maxWorkers totalCount ≤ totalCount := Nat.min_le_right _ _
  have hpos : 0 < min maxWorkers totalCount := by omega
  rw [create_batches_eq_map]
  refine ⟨?_, ?_, ?_, ?_⟩
  · rw [List.map_map]
    have hcounts : ((fun b => b.count) ∘
        plannedBatch maxWorkers topic difficulty totalCount decomp freshId)
        = fun i => totalCount / min maxWorkers totalCount
            + (if i < totalCount % min maxWorkers totalCount then 1 else 0) := by
      funext i
      exact plannedCount_eq maxWorkers totalCount i h1 h2
    rw [hcounts, hw, sum_range_base_ite]
    have hmod : totalCount % min maxWorkers totalCount < min maxWorkers totalCount :=
      Nat.mod_lt _ hpos
    have := Nat.div_add_mod totalCount (min maxWorkers totalCount)
    omega
  · rw [List.length_map, List.length_range, hw]
  · intro i hi
    rw [List.length_map, List.length_range, hw] at hi
    rw [getD_map_range _ _ _ _ (by rw [hw]; exact hi)]
    exact plannedCount_eq maxWorkers totalCount i h1 h2
  · intro b hb
    rcases List.mem_map.mp hb with ⟨i, _, rfl⟩
    have := Nat.le_max_left 1 (totalCount / agentsToUse maxWorkers totalCount)
    simp only [plannedBatch, plannedCount]
    omega

theorem spec_c1_batch_plan_witness :
    (0 < 7 ∧ 1 ≤ 3)
    ∧ ((create_batches 3 "T" "medium" 7 .failure (fun _ => "id")).map
        fun b => b.count).sum = 7 :=
  ⟨⟨by decide, by decide⟩,
   (spec_c1_batch_plan 3 7 "T" "medium" .failure (fun _ => "id")
     (by decide) (by decide)).1⟩

/-- C7: for every `totalCount > 0` and `maxWorkers ≥ 1` the planned batch
item counts differ pairwise by at most 1, and the concrete scenario
`topic="Photosynthesis", totalCount=10, maxWorkers=4` yields exactly 4
batches with counts `[3, 3, 2, 2]` in batch order. -/
theorem spec_c7_balanced_distribution (maxWorkers totalCount : Nat)
    (topic difficulty : String) (decomp : DecompositionOutcome)
    (freshId : Nat → String) (h1 : 0 < totalCount) (h2 : 1 ≤ maxWorkers) :
    (∀ b1 ∈ create_batches maxWorkers topic difficulty totalCount decomp freshId,
     ∀ b2 ∈ create_batches maxWorkers topic difficulty totalCount decomp freshId,
        b1.count ≤ b2.count + 1)
    ∧ ((create_batches 4 "Photosynthesis" "medium" 10 .unconfigured
        (fun _ => "")).map fun b => b.count) = [3, 3, 2, 2]
    ∧ (create_batches 4 "Photosynthesis" "medium" 10 .unconfigured
        (fun _ => "")).length = 4 := by
  refine ⟨?_, by decide, by decide⟩
  intro b1 hb1 b2 hb2
  rw [create_batches_eq_map] at hb1 hb2
  rcases List.mem_map.mp hb1 with ⟨i, _, rfl⟩
  rcases List.mem_map.mp hb2 with ⟨j, _, rfl⟩
  simp only [plannedBatch, plannedCount]
  by_cases hi : i < totalCount % agentsToUse maxWorkers totalCount <;>
    by_cases hj : j < totalCount % agentsToUse maxWorkers totalCount <;>
      simp [hi, hj] <;> omega

theorem spec_c7_balanced_distribution_witness :
    (0 < 10 ∧ 1 ≤ 4)
    ∧ ((create_batches 4 "Photosynthesis" "medium" 10 .unconfigured
        (fun _ => "")).map fun b => b.count) = [3, 3, 2, 2] :=
  ⟨⟨by decide, by decide⟩,
   (spec_c7_balanced_distribution 4 10 "Photosynthesis" "medium" .unconfigured
     (fun _ => "") (by decide) (by decide)).2.1⟩

theorem fillSubtopics_spec_aux (t : String) (c : Nat) :
    ∀ n acc, c - List.length acc = n →
    fillSubtopics t c acc
      = acc ++ (List.range (c - acc.length)).map
          fun i => syntheticSubtopic t (acc.length + i + 1) := by
  intro n
  induction n with
  | zero =>
      intro acc h
      rw [fillSubtopics, if_neg (by omega), h]
      simp
  | succ n ih =>
      intro acc h
      rw [fillSubtopics, if_pos (by omega)]
      rw [ih _ (by simp; omega)]
      simp only [List.length_append, List.length_singleton, List.append_assoc]
      congr 1
      have hk : c - acc.length = (c - (acc.length + 1)) + 1 := by omega
      rw [hk, List.range_succ_eq_map, List.map_cons, List.map_map]
      simp only [List.singleton_append, Nat.add_zero]
      congr 1
      refine List.map_congr_left fun i _ => ?_
      simp only [Function.comp_apply]
      congr 1
      omega

theorem fillSubtopics_spec (t : String) (c : Nat) (acc : List String) :
    fillSubtopics t c acc
      = acc ++ (List.range (c - acc.length)).map
          fun i => syntheticSubtopic t (acc.length + i + 1) :=
  fillSubtopics_spec_aux t c (c - acc.length) acc rfl

theorem fillSubtopics_length (t : String) (c : Nat) (acc : List String) :
    (fillSubtopics t c acc).length = max acc.length c := by
  rw [fillSubtopics_spec]
  simp
  omega

theorem generate_subtopics_length (t : String) (c : Nat)
    (outcome : DecompositionOutcome) :
    (generate_subtopics t c outcome).length = c := by
  cases outcome <;>
    simp [generate_subtopics, List.length_take, fillSubtopics_length] <;> omega

/-- C10: for every topic and every `count ≥ 0` the subtopic helper returns
exactly `count` labels — missing slots (decomposition unconfigured, failed,
or returning fewer than `count` labels) are filled with synthesized
`"<topic> - Parte <i>"` labels and surplus labels are truncated — and every
planned batch index therefore addresses a subtopic strictly inside the
returned list (no out-of-range access). -/
theorem spec_c10_subtopics_total (topic : String) (count : Nat)
    (outcome : DecompositionOutcome) (labels : List String)
    (maxAgents totalCount : Nat) (difficulty : String)
    (freshId : Nat → String) :
    (generate_subtopics topic count outcome).length = count
    ∧ (outcome = .ok labels →
        generate_subtopics topic count outcome
          = (labels ++ (List.range (count - labels.length)).map
              fun i => syntheticSubtopic topic (labels.length + i + 1)).take count)
    ∧ ((outcome = .unconfigured ∨ outcome = .failure) →
        generate_subtopics topic count outcome
          = (List.range count).map fun i => syntheticSubtopic topic (i + 1))
    ∧ ∀ j, j < (create_batches maxAgents topic difficulty totalCount outcome freshId).length →
        ((create_batches maxAgents topic difficulty totalCount outcome freshId).getD j defaultBatch).subtopic
          = (generate_subtopics topic (agentsToUse maxAgents totalCount) outcome).getD j ""
        ∧ j < (generate_subtopics topic (agentsToUse maxAgents totalCount) outcome).length := by
  refine ⟨generate_subtopics_length topic count outcome, ?_, ?_, ?_⟩
  · rintro rfl
    rw [generate_subtopics, fillSubtopics_spec]
  · rintro (rfl | rfl)
    · rfl
    · rw [generate_subtopics, fillSubtopics_spec]
      simp only [List.length_nil, Nat.sub_zero, List.nil_append, Nat.zero_add]
      rw [List.take_of_length_le (by simp)]
  · intro j hj
    rw [create_batches_eq_map] at hj ⊢
    rw [List.length_map, List.length_range] at hj
    rw [getD_map_range _ _ _ _ hj]
    exact ⟨rfl, by rw [generate_subtopics_length]; exact hj⟩

theorem find_map_graph (f : Nat → FlashcardBatch) (l : List Nat) (i : Nat)
    (h : i ∈ l) :
    ((l.map fun j => (j, f j)).find? fun p => p.1 == i) = some (i, f i) := by
  induction l with
  | nil => cases h
  | cons a l ih =>
      rw [List.map_cons]
      by_cases ha : a = i
      · subst ha
        exact List.find?_cons_of_pos _ (by simp)
      · rw [List.find?_cons_of_neg _ (by simp [ha])]
        rcases List.mem_cons.mp h with rfl | hmem
        · exact absurd rfl ha
        · exact ih hmem

theorem map_range_getD {α β : Type} (l : List α) (d : α) (g : α → β) :
    ((List.range l.length).map fun i => g (l.getD i d)) = l.map g := by
  induction l with
  | nil => rfl
  | cons a l ih =>
      rw [List.length_cons, List.range_succ_eq_map, List.map_cons, List.map_map,
        List.map_cons]
      congr 1

/-- `asyncio.gather` semantics: whatever order the tasks finish in (any
permutation of the task indices), the results come back in task-submission
order, so the run is equivalent to mapping the task body over the batches. -/
theorem gather_perm (run : FlashcardBatch → FlashcardBatch)
    (batches : List FlashcardBatch) (order : List Nat)
    (h : order.Perm (List.range batches.length)) :
    gatherByIndex (completionLog run batches order) batches.length
      = batches.map run := by
  unfold gatherByIndex completionLog
  have step : ∀ i ∈ List.range batches.length,
      ((((order.map fun j => (j, run (batches.getD j defaultBatch))).find?
          fun p => p.1 == i).map Prod.snd).getD defaultBatch)
        = run (batches.getD i defaultBatch) := by
    intro i hi
    rw [find_map_graph _ _ _ (h.mem_iff.mpr hi)]
    rfl
  rw [List.map_congr_left step, map_range_getD]

theorem runTask_agentId (parse : String → Option (List RawItem))
    (totalBatches : Nat) (taskOutcome : FlashcardBatch → TaskOutcome)
    (b : FlashcardBatch) :
    (runTask parse totalBatches taskOutcome b).agentId = b.agentId := by
  cases hto : taskOutcome b with
  | fault msg => simp [runTask, hto]
  | provider po =>
      cases po with
      | unavailable msg => simp [runTask, generate_flashcards_batch, hto]
      | failure msg => simp [runTask, generate_flashcards_batch, hto]
      | ok content =>
          cases hp : parse (prepareContent content) <;>
            simp [runTask, generate_flashcards_batch, hto, hp]

theorem runTask_items (parse : String → Option (List RawItem))
    (totalBatches : Nat) (taskOutcome : FlashcardBatch → TaskOutcome)
    (b : FlashcardBatch) (hb : b.flashcards = []) :
    ∀ x ∈ (runTask parse totalBatches taskOutcome b).flashcards,
      x.agentId = b.agentId := by
  cases hto : taskOutcome b with
  | fault msg => simp [runTask, hto, hb]
  | provider po =>
      cases po with
      | unavailable msg => simp [runTask, generate_flashcards_batch, hto, hb]
      | failure msg => simp [runTask, generate_flashcards_batch, hto, hb]
      | ok content =>
          cases hp : parse (prepareContent content) with
          | none => simp [runTask, generate_flashcards_batch, hto, hp, hb]
          | some raws =>
              simp only [runTask, hto, generate_flashcards_batch, hp]
              intro x hx
              simp only [tagFlashcards, List.mem_map] at hx
              rcases hx with ⟨p, _, rfl⟩
              rfl

theorem aggregateItems_eq (results : List FlashcardBatch) :
    aggregateItems results
      = ((results.filter fun b => b.status == .completed).map
          fun b => b.flashcards).flatten := by
  suffices h : ∀ (l : List FlashcardBatch) (acc : List TaggedItem),
      l.foldl (fun acc b => if b.status == .completed then acc ++ b.flashcards else acc) acc
        = acc ++ ((l.filter fun b => b.status == .completed).map
            fun b => b.flashcards).flatten by
    rw [aggregateItems, h results []]
    exact List.nil_append _
  intro l
  induction l with
  | nil => simp
  | cons b l ih =>
      intro acc
      rw [List.foldl_cons, ih]
      by_cases hb : (b.status == BatchStatus.completed) = true <;>
        simp [hb, List.filter_cons, List.append_assoc]

theorem mem_aggregateItems (results : List FlashcardBatch) (x : TaggedItem) :
    x ∈ aggregateItems results
      ↔ ∃ b ∈ results, b.status = .completed ∧ x ∈ b.flashcards := by
  rw [aggregateItems_eq]
  simp only [List.mem_flatten, List.mem_map, List.mem_filter, beq_iff_eq]
  constructor
  · rintro ⟨l, ⟨b, ⟨hb, hs⟩, rfl⟩, hx⟩
    exact ⟨b, hb, hs, hx⟩
  · rintro ⟨b, hb, hs, hx⟩
    exact ⟨b.flashcards, ⟨b, ⟨hb, hs⟩, rfl⟩, hx⟩

theorem generate_parallel_eq (maxAgents : Nat) (topic difficulty : String)
    (count : Int) (decomp : DecompositionOutcome) (freshId : Nat → String)
    (taskOutcome : FlashcardBatch → TaskOutcome)
    (parse : String → Option (List RawItem)) (order : List Nat)
    (h1 : 0 < count)
    (hperm : order.Perm (List.range
      (create_batches maxAgents topic difficulty count.toNat decomp freshId).length)) :
    generate_flashcards_parallel true maxAgents topic count difficulty decomp
        freshId taskOutcome parse order
      = (if !(aggregateItems (parallelResults maxAgents topic difficulty
            count.toNat decomp freshId taskOutcome parse)).isEmpty then
          { success := true,
            flashcards := aggregateItems (parallelResults maxAgents topic
              difficulty count.toNat decomp freshId taskOutcome parse),
            batchesCompleted := ((parallelResults maxAgents topic difficulty
              count.toNat decomp freshId taskOutcome parse).filter
                fun b => b.status == .completed).length,
            batchesFailed := ((parallelResults maxAgents topic difficulty
              count.toNat decomp freshId taskOutcome parse).filter
                fun b => b.status == .error).length }
        else
          { success := false, error := some "Falha na geração de flashcards",
            batchesFailed := ((parallelResults maxAgents topic difficulty
              count.toNat decomp freshId taskOutcome parse).filter
                fun b => b.status == .error).length }) := by
  have hc : ¬ count ≤ 0 := by omega
  have hlen : (create_batches maxAgents topic difficulty count.toNat decomp freshId).length
      = agentsToUse maxAgents count.toNat := by
    rw [create_batches_eq_map, List.length_map, List.length_range]
  have hne : (create_batches maxAgents topic difficulty count.toNat decomp freshId).isEmpty
      = false := by
    rw [List.isEmpty_eq_false]
    intro he
    rw [he] at hlen
    unfold agentsToUse at hlen
    simp at hlen
    omega
  unfold generate_flashcards_parallel
  rw [if_neg (by decide : ¬ ((!true) = true)), if_neg hc]
  simp only [hne, Bool.false_eq_true, if_false]
  rw [gather_perm _ _ _ hperm]
  rfl

theorem parallelResults_pairwise (maxAgents : Nat) (topic difficulty : String)
    (totalCount : Nat) (decomp : DecompositionOutcome)
    (freshId : Nat → String) (taskOutcome : FlashcardBatch → TaskOutcome)
    (parse : String → Option (List RawItem)) :
    List.Pairwise (fun b1 b2 => b1.agentId < b2.agentId)
      (parallelResults maxAgents topic difficulty totalCount decomp freshId
        taskOutcome parse) := by
  unfold parallelResults
  rw [create_batches_eq_map, List.map_map]
  refine List.pairwise_map.mpr ?_
  refine (List.pairwise_lt_range _).imp ?_
  intro i j hij
  simp only [Function.comp_apply]
  rw [runTask_agentId, runTask_agentId]
  simp only [plannedBatch]
  omega

theorem parallelResults_items (maxAgents : Nat) (topic difficulty : String)
    (totalCount : Nat) (decomp : DecompositionOutcome)
    (freshId : Nat → String) (taskOutcome : FlashcardBatch → TaskOutcome)
    (parse : String → Option (List RawItem)) :
    ∀ b ∈ parallelResults maxAgents topic difficulty totalCount decomp freshId
        taskOutcome parse,
      ∀ x ∈ b.flashcards, x.agentId = b.agentId := by
  intro b hb
  unfold parallelResults at hb
  rcases List.mem_map.mp hb with ⟨b0, hb0, rfl⟩
  have hempty : b0.flashcards = [] := by
    rw [create_batches_eq_map] at hb0
    rcases List.mem_map.mp hb0 with ⟨i, _, rfl⟩
    rfl
  simp only [runTask_agentId]
  exact runTask_items _ _ _ _ hempty

theorem aggregate_sorted (maxAgents : Nat) (topic difficulty : String)
    (totalCount : Nat) (decomp : DecompositionOutcome)
    (freshId : Nat → String) (taskOutcome : FlashcardBatch → TaskOutcome)
    (parse : String → Option (List RawItem)) :
    List.Sorted (· ≤ ·)
      ((aggregateItems (parallelResults maxAgents topic difficulty totalCount
          decomp freshId taskOutcome parse)).map fun x => x.agentId) := by
  have hpair := parallelResults_pairwise maxAgents topic difficulty totalCount
    decomp freshId taskOutcome parse
  have hitems := parallelResults_items maxAgents topic difficulty totalCount
    decomp freshId taskOutcome parse
  rw [aggregateItems_eq, List.map_flatten, List.map_map]
  refine List.pairwise_flatten.mpr ⟨?_, ?_⟩
  · intro l hl
    rcases List.mem_map.mp hl with ⟨b, hbf, rfl⟩
    have hbmem := (List.mem_filter.mp hbf).1
    refine List.pairwise_of_forall_mem_list ?_
    intro x hx y hy
    simp only [Function.comp_apply] at hx hy
    rcases List.mem_map.mp hx with ⟨ix, hix, rfl⟩
    rcases List.mem_map.mp hy with ⟨iy, hiy, rfl⟩
    rw [hitems b hbmem ix hix, hitems b hbmem iy hiy]
  · refine List.pairwise_map.mpr ?_
    refine (hpair.filter _).imp_of_mem ?_
    intro b1 b2 h1 h2 hlt
    intro x hx y hy
    simp only [Function.comp_apply] at hx hy
    rcases List.mem_map.mp hx with ⟨ix, hix, rfl⟩
    rcases List.mem_map.mp hy with ⟨iy, hiy, rfl⟩
    rw [hitems b1 (List.mem_filter.mp h1).1 ix hix,
      hitems b2 (List.mem_filter.mp h2).1 iy hiy]
    omega

/-- C2: for every run of the parallel generation in which at least one batch
completes, the aggregated item list is ordered by ascending `workerIndex`
(batch creation order), and the composite result is the same for every order
in which the concurrent worker tasks finish. -/
theorem spec_c2_aggregate_order (maxAgents : Nat) (topic difficulty : String)
    (count : Int) (decomp : DecompositionOutcome) (freshId : Nat → String)
    (taskOutcome : FlashcardBatch → TaskOutcome)
    (parse : String → Option (List RawItem)) (order order2 : List Nat)
    (h1 : 0 < count)
    (hperm : order.Perm (List.range
      (create_batches maxAgents topic difficulty count.toNat decomp freshId).length))
    (hperm2 : order2.Perm (List.range
      (create_batches maxAgents topic difficulty count.toNat decomp freshId).length))
    (hcomp : ∃ b ∈ parallelResults maxAgents topic difficulty count.toNat
        decomp freshId taskOutcome parse, b.status = .completed) :
    List.Sorted (· ≤ ·)
      ((generate_flashcards_parallel true maxAgents topic count difficulty
          decomp freshId taskOutcome parse order).flashcards.map
        fun x => x.agentId)
    ∧ generate_flashcards_parallel true maxAgents topic count difficulty
        decomp freshId taskOutcome parse order
      = generate_flashcards_parallel true maxAgents topic count difficulty
          decomp freshId taskOutcome parse order2 := by
  rw [generate_parallel_eq maxAgents topic difficulty count decomp freshId
      taskOutcome parse order h1 hperm,
    generate_parallel_eq maxAgents topic difficulty count decomp freshId
      taskOutcome parse order2 h1 hperm2]
  refine ⟨?_, rfl⟩
  by_cases hagg : (aggregateItems (parallelResults maxAgents topic difficulty
      count.toNat decomp freshId taskOutcome parse)).isEmpty = true
  · simp [hagg]
  · simp only [Bool.not_eq_true] at hagg
    simp only [hagg, Bool.not_false, if_true]
    exact aggregate_sorted maxAgents topic difficulty count.toNat decomp
      freshId taskOutcome parse

theorem spec_c2_aggregate_order_witness :
    (0 : Int) < 3
    ∧ List.Sorted (· ≤ ·)
      ((generate_flashcards_parallel true 2 "T" 3 "easy" .unconfigured
          (fun i => toString i) (fun _ => .provider (.ok "x"))
          (fun _ => some [{ payload := "p" }]) [1, 0]).flashcards.map
        fun x => x.agentId) :=
  ⟨by decide,
   (spec_c2_aggregate_order 2 "T" "easy" 3 .unconfigured (fun i => toString i)
     (fun _ => .provider (.ok "x")) (fun _ => some [{ payload := "p" }])
     [1, 0] [0, 1] (by decide) (by decide) (by decide) (by decide)).1⟩

/-- C3: for every run with planned batches the composite result has
`success = true` exactly when the aggregated item list is non-empty; every
item of every completed batch appears in the aggregate (one failing batch
does not suppress the others), the successful/failed batch counts are
reported on success, and when every batch fails the result is
`success = false` with an empty aggregated item list. -/
theorem spec_c3_partial_success (maxAgents : Nat) (topic difficulty : String)
    (count : Int) (decomp : DecompositionOutcome) (freshId : Nat → String)
    (taskOutcome : FlashcardBatch → TaskOutcome)
    (parse : String → Option (List RawItem)) (order : List Nat)
    (h1 : 0 < count)
    (hperm : order.Perm (List.range
      (create_batches maxAgents topic difficulty count.toNat decomp freshId).length)) :
    ((generate_flashcards_parallel true maxAgents topic count difficulty
        decomp freshId taskOutcome parse order).success = true
      ↔ (generate_flashcards_parallel true maxAgents topic count difficulty
          decomp freshId taskOutcome parse order).flashcards ≠ [])
    ∧ (∀ b ∈ parallelResults maxAgents topic difficulty count.toNat decomp
          freshId taskOutcome parse,
        b.status = .completed →
        ∀ x ∈ b.flashcards,
          x ∈ (generate_flashcards_parallel true maxAgents topic count
            difficulty decomp freshId taskOutcome parse order).flashcards)
    ∧ ((∀ b ∈ parallelResults maxAgents topic difficulty count.toNat decomp
          freshId taskOutcome parse, b.status = .error) →
        (generate_flashcards_parallel true maxAgents topic count difficulty
          decomp freshId taskOutcome parse order).success = false
        ∧ (generate_flashcards_parallel true maxAgents topic count difficulty
            decomp freshId taskOutcome parse order).flashcards = [])
    ∧ ((generate_flashcards_parallel true maxAgents topic count difficulty
          decomp freshId taskOutcome parse order).success = true →
        (generate_flashcards_parallel true maxAgents topic count difficulty
          decomp freshId taskOutcome parse order).batchesCompleted
          = ((parallelResults maxAgents topic difficulty count.toNat decomp
              freshId taskOutcome parse).filter
                fun b => b.status == .completed).length
        ∧ (generate_flashcards_parallel true maxAgents topic count difficulty
            decomp freshId taskOutcome parse order).batchesFailed
          = ((parallelResults maxAgents topic difficulty count.toNat decomp
              freshId taskOutcome parse).filter
                fun b => b.status == .error).length) := by
  rw [generate_parallel_eq maxAgents topic difficulty count decomp freshId
    taskOutcome parse order h1 hperm]
  by_cases hagg : (aggregateItems (parallelResults maxAgents topic difficulty
      count.toNat decomp freshId taskOutcome parse)).isEmpty = true
  · have hnil : aggregateItems (parallelResults maxAgents topic difficulty
        count.toNat decomp freshId taskOutcome parse) = [] :=
      List.isEmpty_iff.mp hagg
    refine ⟨by simp [hagg], ?_, by simp [hagg], by simp [hagg]⟩
    intro b hb hs x hx
    have : x ∈ aggregateItems (parallelResults maxAgents topic difficulty
        count.toNat decomp freshId taskOutcome parse) :=
      (mem_aggregateItems _ _).mpr ⟨b, hb, hs, hx⟩
    rw [hnil] at this
    cases this
  · simp only [Bool.not_eq_true] at hagg
    have hne : aggregateItems (parallelResults maxAgents topic difficulty
        count.toNat decomp freshId taskOutcome parse) ≠ [] :=
      List.isEmpty_eq_false.mp hagg
    refine ⟨by simp [hagg, hne], ?_, ?_, by simp [hagg]⟩
    · intro b hb hs x hx
      simp only [hagg, Bool.not_false, if_true]
      exact (mem_aggregateItems _ _).mpr ⟨b, hb, hs, hx⟩
    · intro hall
      exfalso
      rcases List.exists_mem_of_ne_nil _ hne with ⟨x, hx⟩
      rcases (mem_aggregateItems _ _).mp hx with ⟨b, hb, hs, _⟩
      have := hall b hb
      rw [hs] at this
      cases this

theorem spec_c3_partial_success_witness :
    (0 : Int) < 4
    ∧ ((generate_flashcards_parallel true 3 "T" 4 "easy" .unconfigured
        (fun i => toString i)
        (fun b => if b.agentId == 2 then .fault "boom" else .provider (.ok "x"))
        (fun _ => some [{ payload := "p" }]) [2, 0, 1]).success = true
      ↔ (generate_flashcards_parallel true 3 "T" 4 "easy" .unconfigured
          (fun i => toString i)
          (fun b => if b.agentId == 2 then .fault "boom" else .provider (.ok "x"))
          (fun _ => some [{ payload := "p" }]) [2, 0, 1]).flashcards ≠ []) :=
  ⟨by decide,
   (spec_c3_partial_success 3 "T" "easy" 4 .unconfigured (fun i => toString i)
     (fun b => if b.agentId == 2 then .fault "boom" else .provider (.ok "x"))
     (fun _ => some [{ payload := "p" }]) [2, 0, 1]
     (by decide) (by decide)).1⟩

theorem lookup_append_some {κ β : Type} [BEq κ] (m l2 : List (κ × β)) (j : κ)
    (v : β) (h : m.lookup j = some v) : (m ++ l2).lookup j = some v := by
  induction m with
  | nil => simp [List.lookup] at h
  | cons a m ih =>
      obtain ⟨k, w⟩ := a
      rw [List.cons_append]
      cases hk : j == k <;>
        simp only [List.lookup_cons, hk] <;>
        simp only [List.lookup_cons, hk] at h
      · exact ih h
      · exact h

theorem lookup_append_none {κ β : Type} [BEq κ] (m l2 : List (κ × β)) (j : κ)
    (h : m.lookup j = none) : (m ++ l2).lookup j = l2.lookup j := by
  induction m with
  | nil => rfl
  | cons a m ih =>
      obtain ⟨k, w⟩ := a
      rw [List.cons_append]
      cases hk : j == k <;>
        simp only [List.lookup_cons, hk] <;>
        simp only [List.lookup_cons, hk] at h
      · exact ih h
      · exact absurd h (by simp)

theorem lookup_ensureAgentSlots (m : List (Nat × AgentRecord)) (k j : Nat)
    (hm : m.lookup j = none ∨ m.lookup j = some waitingRecord) :
    (ensureAgentSlots m k).lookup j = none
      ∨ (ensureAgentSlots m k).lookup j = some waitingRecord := by
  unfold ensureAgentSlots
  generalize List.range k = is
  induction is generalizing m with
  | nil => exact hm
  | cons i is ih =>
      rw [List.foldl_cons]
      by_cases hi : ((m.lookup (i + 1)).isSome : Prop)
      · rw [if_pos hi]
        exact ih m hm
      · rw [if_neg hi]
        refine ih _ ?_
        rcases hm with hm | hm
        · rw [lookup_append_none _ _ _ hm]
          cases hj : j == i + 1 <;> simp [List.lookup_cons, hj, List.lookup]
        · exact Or.inr (lookup_append_some _ _ _ _ hm)

theorem update_completedAgents (t : ProgressTracker) (w : Nat)
    (s sub : String) (p : Nat) :
    (t.update_agent_status w s sub p).completedAgents
      = if isTerminalStatus s && !isTerminalStatus (t.statusOf w) then
          min t.totalAgents (t.completedAgents + 1)
        else t.completedAgents := by
  unfold ProgressTracker.update_agent_status ProgressTracker.statusOf
  by_cases hl : ((t.agentsStatus.lookup w).isSome : Prop)
  · simp [hl]
  · have hnone : t.agentsStatus.lookup w = none :=
      Option.not_isSome_iff_eq_none.mp hl
    rcases lookup_ensureAgentSlots t.agentsStatus w w (Or.inl hnone) with he | he <;>
      simp [hl, hnone, he, waitingRecord, isTerminalStatus]

theorem update_totalAgents (t : ProgressTracker) (w : Nat)
    (s sub : String) (p : Nat) :
    (t.update_agent_status w s sub p).totalAgents = t.totalAgents := rfl

theorem applyUpdates_le (t : ProgressTracker) (calls : List UpdateCall)
    (h : t.completedAgents ≤ t.totalAgents) :
    (applyUpdates t calls).completedAgents ≤ (applyUpdates t calls).totalAgents := by
  induction calls generalizing t with
  | nil => exact h
  | cons c calls ih =>
      rw [applyUpdates, List.foldl_cons]
      refine ih _ ?_
      rw [update_completedAgents, update_totalAgents]
      split <;> omega

/-- C5 counterexample: with a fresh tracker of 2 workers, reporting worker 1
as `completed`, then `processing`, then `completed` again increments
`completedAgents` twice for that single worker (to 2), so `completedCount`
is not incremented exactly once per worker over arbitrary `UpdateWorker`
sequences — the code re-counts a worker whose status leaves and re-enters
the terminal set. -/
theorem spec_c5_counterexample :
    (applyUpdates (ProgressTracker.init "op" 2)
      [{ agentId := 1, status := "completed", subtopic := "", progress := 100 }]).completedAgents = 1
    ∧ (applyUpdates (ProgressTracker.init "op" 2)
      [{ agentId := 1, status := "completed", subtopic := "", progress := 100 },
       { agentId := 1, status := "processing", subtopic := "", progress := 10 },
       { agentId := 1, status := "completed", subtopic := "", progress := 100 }]).completedAgents = 2 := by
  decide

/-- C5 (amended): for every sequence of `UpdateWorker` calls on a fresh
ProgressTracker, `completedWorkers` never exceeds `totalWorkers`; a call
increments `completedCount` (by one, capped at `totalWorkers`) exactly when
it moves the worker from a non-terminal to a terminal status, so
re-reporting a terminal status (the same or the other one) for an
already-terminal worker does not increment it again — but a worker whose
status is reset to a non-terminal value and then re-enters the terminal set
is counted once more. -/
theorem spec_c5_tracker_idempotent (operationId : String) (n : Nat)
    (calls : List UpdateCall) (w : Nat) (s sub : String) (p : Nat) :
    (applyUpdates (ProgressTracker.init operationId n) calls).completedAgents
      ≤ (applyUpdates (ProgressTracker.init operationId n) calls).totalAgents
    ∧ (isTerminalStatus ((applyUpdates (ProgressTracker.init operationId n)
          calls).statusOf w) = true →
        ((applyUpdates (ProgressTracker.init operationId n)
            calls).update_agent_status w s sub p).completedAgents
          = (applyUpdates (ProgressTracker.init operationId n)
              calls).completedAgents)
    ∧ (isTerminalStatus s = false →
        ((applyUpdates (ProgressTracker.init operationId n)
            calls).update_agent_status w s sub p).completedAgents
          = (applyUpdates (ProgressTracker.init operationId n)
              calls).completedAgents)
    ∧ (isTerminalStatus s = true →
        isTerminalStatus ((applyUpdates (ProgressTracker.init operationId n)
          calls).statusOf w) = false →
        ((applyUpdates (ProgressTracker.init operationId n)
            calls).update_agent_status w s sub p).completedAgents
          = min (applyUpdates (ProgressTracker.init operationId n)
              calls).totalAgents
              ((applyUpdates (ProgressTracker.init operationId n)
                calls).completedAgents + 1)) := by
  refine ⟨?_, ?_, ?_, ?_⟩
  · refine applyUpdates_le _ _ ?_
    unfold ProgressTracker.init
    simp
  · intro hterm
    rw [update_completedAgents]
    simp [hterm]
  · intro hs
    rw [update_completedAgents]
    simp [hs]
  · intro hs hnterm
    rw [update_completedAgents]
    simp [hs, hnterm]

theorem spec_c5_tracker_idempotent_witness :
    (applyUpdates (ProgressTracker.init "op" 2) []).completedAgents
      ≤ (applyUpdates (ProgressTracker.init "op" 2) []).totalAgents :=
  (spec_c5_tracker_idempotent "op" 2 [] 1 "completed" "" 100).1

theorem getD_map_lt {α β : Type} (l : List α) (f : α → β) (j : Nat)
    (hj : j < l.length) (d : α) (d2 : β) :
    (l.map f).getD j d2 = f (l.getD j d) := by
  rw [List.getD_eq_getElem?_getD, List.getElem?_map,
    List.getElem?_eq_getElem hj, List.getD_eq_getElem?_getD,
    List.getElem?_eq_getElem hj]
  rfl

/-- C6: for every batch and every failing provider outcome (client
unavailable, call raised, or non-JSON output), the worker returns the batch
(same identity fields) with `status = error` and a set `errorMessage`, its
emitted events end with an `error` event at 100%, and — at the orchestrator
level — the result slot of any task depends only on that task's own batch
and outcome, so one batch's failure cannot change a sibling's result. -/
theorem spec_c6_worker_failure (agentId : Nat) (batch : FlashcardBatch)
    (totalBatches : Nat) (parse : String → Option (List RawItem))
    (outcome : ProviderOutcome) (h : providerFails parse outcome) :
    (generate_flashcards_batch agentId batch totalBatches parse outcome).1.status = .error
    ∧ ((generate_flashcards_batch agentId batch totalBatches parse outcome).1.errorMessage).isSome = true
    ∧ (generate_flashcards_batch agentId batch totalBatches parse outcome).2
        = [{ agentId := agentId, status := "processing",
             subtopic := batch.subtopic, progress := 5,
             totalBatches := totalBatches },
           { agentId := agentId, status := "error",
             subtopic := batch.subtopic, progress := 100,
             totalBatches := totalBatches }]
    ∧ (generate_flashcards_batch agentId batch totalBatches parse outcome).1.topic = batch.topic
    ∧ (generate_flashcards_batch agentId batch totalBatches parse outcome).1.subtopic = batch.subtopic
    ∧ (generate_flashcards_batch agentId batch totalBatches parse outcome).1.agentId = batch.agentId
    ∧ ∀ (batches : List FlashcardBatch)
        (outA outB : FlashcardBatch → TaskOutcome) (j : Nat),
        j < batches.length →
        outA (batches.getD j defaultBatch) = outB (batches.getD j defaultBatch) →
        (batches.map (runTask parse totalBatches outA)).getD j defaultBatch
          = (batches.map (runTask parse totalBatches outB)).getD j defaultBatch := by
  have hiso : ∀ (batches : List FlashcardBatch)
      (outA outB : FlashcardBatch → TaskOutcome) (j : Nat),
      j < batches.length →
      outA (batches.getD j defaultBatch) = outB (batches.getD j defaultBatch) →
      (batches.map (runTask parse totalBatches outA)).getD j defaultBatch
        = (batches.map (runTask parse totalBatches outB)).getD j defaultBatch := by
    intro batches outA outB j hj hagree
    rw [getD_map_lt _ _ _ hj defaultBatch, getD_map_lt _ _ _ hj defaultBatch]
    simp only [runTask, hagree]
  cases outcome with
  | unavailable msg => exact ⟨rfl, rfl, rfl, rfl, rfl, rfl, hiso⟩
  | failure msg => exact ⟨rfl, rfl, rfl, rfl, rfl, rfl, hiso⟩
  | ok content =>
      have hp : parse (prepareContent content) = none := h
      refine ⟨?_, ?_, ?_, ?_, ?_, ?_, hiso⟩ <;>
        simp [generate_flashcards_batch, hp]

theorem spec_c6_worker_failure_witness :
    providerFails (fun _ => none) (.ok "junk")
    ∧ (generate_flashcards_batch 1 defaultBatch 2 (fun _ => none)
        (.ok "junk")).1.status = .error :=
  ⟨rfl, (spec_c6_worker_failure 1 defaultBatch 2 (fun _ => none)
    (.ok "junk") rfl).1⟩

theorem waitLoop_all_absent (present : Nat → Bool)
    (h : ∀ u, u ≤ 30 → present u = false) :
    ∀ n c, 30 - c = n → c ≤ 30 → waitLoop present c = 30 := by
  intro n
  induction n with
  | zero =>
      intro c hn hc
      have hc30 : c = 30 := by omega
      subst hc30
      rw [waitLoop, h 30 (by omega)]
      simp
  | succ n ih =>
      intro c hn hc
      rw [waitLoop, h c hc]
      have hlt : c < 30 := by omega
      simp only [Bool.false_eq_true, if_false, hlt, if_true]
      exact ih (c + 1) (by omega) (by omega)

/-- C8: when the operation id never appears in the process-wide progress
table during the bounded wait (polls at 0..30 sleeps), the progress stream
emits the `connected` preamble, then exactly one terminal `timeout` event,
and ends — no event follows the timeout. -/
theorem spec_c8_stream_timeout (present : Nat → Bool)
    (trackerAt : Nat → ProgressTracker) (operationId : String) (fuel : Nat)
    (h : ∀ u, u ≤ 30 → present u = false) :
    stream_progress_events present trackerAt operationId fuel
      = [StreamEvent.connected operationId, StreamEvent.timeout]
    ∧ (stream_progress_events present trackerAt operationId fuel).getLast?
        = some StreamEvent.timeout := by
  have hw : waitLoop present 0 = 30 :=
    waitLoop_all_absent present h 30 0 (by omega) (by omega)
  have heq : stream_progress_events present trackerAt operationId fuel
      = [StreamEvent.connected operationId, StreamEvent.timeout] := by
    unfold stream_progress_events
    simp only [hw, h 30 (by omega), Bool.false_eq_true, if_false]
  exact ⟨heq, by rw [heq]; rfl⟩

theorem spec_c8_stream_timeout_witness :
    stream_progress_events (fun _ => false)
        (fun _ => ProgressTracker.init "x" 1) "op9" 5
      = [StreamEvent.connected "op9", StreamEvent.timeout] :=
  (spec_c8_stream_timeout (fun _ => false)
    (fun _ => ProgressTracker.init "x" 1) "op9" 5 (fun _ _ => rfl)).1

/-- C9: the very first event the progress stream emits is always the
`connected` event carrying the operation id — it precedes the bounded wait,
so even the timeout path yields `connected` followed by the timeout event. -/
theorem spec_c9_connected_first (present : Nat → Bool)
    (trackerAt : Nat → ProgressTracker) (operationId : String) (fuel : Nat) :
    (stream_progress_events present trackerAt operationId fuel).head?
      = some (StreamEvent.connected operationId)
    ∧ ((∀ u, u ≤ 30 → present u = false) →
        stream_progress_events present trackerAt operationId fuel
          = [StreamEvent.connected operationId, StreamEvent.timeout]) := by
  refine ⟨rfl, ?_⟩
  intro h
  have hw : waitLoop present 0 = 30 :=
    waitLoop_all_absent present h 30 0 (by omega) (by omega)
  unfold stream_progress_events
  simp only [hw, h 30 (by omega), Bool.false_eq_true, if_false]

theorem spec_c9_connected_first_witness :
    (stream_progress_events (fun u => 5 ≤ u)
        (fun _ => ProgressTracker.init "x" 1) "op7" 3).head?
      = some (StreamEvent.connected "op7") :=
  (spec_c9_connected_first (fun u => 5 ≤ u)
    (fun _ => ProgressTracker.init "x" 1) "op7" 3).1

theorem lookup_replace (store : ProgressStore) (opId : String)
    (t : ProgressTracker) (hs : (store.lookup opId).isSome = true) :
    (store.map fun p => if p.1 == opId then (opId, t) else p).lookup opId
      = some t := by
  induction store with
  | nil => simp [List.lookup] at hs
  | cons a store ih =>
      obtain ⟨k, v⟩ := a
      cases hk : k == opId
      · have hk2 : (opId == k) = false := by
          simp only [beq_eq_false_iff_ne] at hk ⊢
          exact fun he => hk he.symm
        rw [List.map_cons, if_neg (by simp [hk])]
        simp only [List.lookup_cons, hk2]
        simp only [List.lookup_cons, hk2] at hs
        exact ih hs
      · rw [List.map_cons, if_pos (by simp [hk])]
        simp [List.lookup_cons]

theorem lookup_storeSet (store : ProgressStore) (opId : String)
    (t : ProgressTracker) : (storeSet store opId t).lookup opId = some t := by
  unfold storeSet
  by_cases hs : ((store.lookup opId).isSome = true)
  · rw [if_pos hs]
    exact lookup_replace store opId t hs
  · rw [if_neg hs,
      lookup_append_none _ _ _ (Option.not_isSome_iff_eq_none.mp hs)]
    simp [List.lookup_cons]

/-- C4 counterexample: a request with `totalCount = 0` does create a
ProgressTracker entry — `start_flashcard_generation` registers the tracker
in the process-wide store before the generator rejects the count, so the
claim's "no ProgressTracker entry is created" is false on the code. -/
theorem spec_c4_counterexample :
    ((start_flashcard_generation [] "op1" true 4 "Topic" 0 "medium" true
        .unconfigured (fun _ => "b") (fun _ => .fault "") (fun _ => none)
        [] [] (false, [])).1.lookup "op1").isSome = true := by
  decide

/-- C4 (amended): when the requested count is non-positive or the generation
provider is not configured, `generate_flashcards_parallel` rejects the
request synchronously before any batch is planned (the result is a fixed
rejection value, independent of the decomposition, the batch ids and the
workers); however, `start_flashcard_generation` registers a ProgressTracker
entry for the operation before invoking the generator, so a tracker entry
exists even for rejected requests. -/
theorem spec_c4_reject_before_planning (maxAgents : Nat)
    (topic difficulty : String) (count : Int) (store : ProgressStore)
    (operationId : String) (generatorConfigured openaiConfigured : Bool)
    (decomp decomp2 : DecompositionOutcome) (freshId freshId2 : Nat → String)
    (taskOutcome : FlashcardBatch → TaskOutcome)
    (parse : String → Option (List RawItem)) (order : List Nat)
    (workerCalls : List UpdateCall) (fallback : Bool × List TaggedItem)
    (hcount : count ≤ 0) :
    generate_flashcards_parallel true maxAgents topic count difficulty decomp
        freshId taskOutcome parse order
      = { success := false,
          error := some "Quantidade de flashcards deve ser positiva" }
    ∧ generate_flashcards_parallel true maxAgents topic count difficulty
        decomp freshId taskOutcome parse order
      = generate_flashcards_parallel true maxAgents topic count difficulty
          decomp2 freshId2 taskOutcome parse order
    ∧ (∀ (count2 : Int) (decomp3 : DecompositionOutcome)
        (freshId3 : Nat → String) (order3 : List Nat),
        generate_flashcards_parallel false maxAgents topic count2 difficulty
            decomp3 freshId3 taskOutcome parse order3
          = { success := false,
              error := some "Serviço de IA indisponível no momento" })
    ∧ ((start_flashcard_generation store operationId generatorConfigured
          maxAgents topic count difficulty openaiConfigured decomp freshId
          taskOutcome parse order workerCalls
          fallback).1.lookup operationId).isSome = true := by
  have hrej : ∀ (d : DecompositionOutcome) (f : Nat → String),
      generate_flashcards_parallel true maxAgents topic count difficulty d f
          taskOutcome parse order
        = { success := false,
            error := some "Quantidade de flashcards deve ser positiva" } := by
    intro d f
    unfold generate_flashcards_parallel
    rw [if_neg (by decide : ¬ ((!true) = true)), if_pos hcount]
  refine ⟨hrej decomp freshId, by rw [hrej, hrej], ?_, ?_⟩
  · intro count2 decomp3 freshId3 order3
    unfold generate_flashcards_parallel
    rw [if_pos (by decide : (!false) = true)]
  · unfold start_flashcard_generation
    cases generatorConfigured with
    | false =>
        simp only [Bool.not_false, if_true]
        simp [lookup_storeSet]
    | true =>
        simp only [Bool.not_true, Bool.false_eq_true, if_false]
        split <;> simp [lookup_storeSet]

theorem spec_c4_reject_before_planning_witness :
    (0 : Int) ≤ 0
    ∧ generate_flashcards_parallel true 4 "Topic" 0 "medium" .unconfigured
        (fun _ => "b") (fun _ => .fault "") (fun _ => none) []
      = { success := false,
          error := some "Quantidade de flashcards deve ser positiva" } :=
  ⟨by decide,
   (spec_c4_reject_before_planning 4 "Topic" "medium" 0 [] "op1" true true
     .unconfigured .failure (fun _ => "b") (fun _ => "c") (fun _ => .fault "")
     (fun _ => none) [] [] (false, []) (by decide)).1⟩

theorem spec_c10_subtopics_total_witness :
    (generate_subtopics "T" 3 (.ok ["a"])).length = 3
    ∧ generate_subtopics "T" 3 (.ok ["a"])
        = (["a"] ++ (List.range (3 - (["a"] : List String).length)).map
            fun i => syntheticSubtopic "T" ((["a"] : List String).length + i + 1)).take 3 :=
  ⟨(spec_c10_subtopics_total "T" 3 (.ok ["a"]) ["a"] 4 3 "medium" (fun _ => "")).1,
   (spec_c10_subtopics_total "T" 3 (.ok ["a"]) ["a"] 4 3 "medium" (fun _ => "")).2.1 rfl⟩
